import Mathlib

/-!
Shallow embedding of the nfx-hashing core (Algorithms.inl, Hasher.inl,
Constants.h) over `Nat`, with machine-width wraparound made explicit via
`% 2^32` / `% 2^64`.  Definitions mirror the C++ source; the hardware
CRC32-C instruction (external to the repository) is modelled from the
spec as the canonical bit-serial reflected CRC step.
-/

/-! ## Constants (Constants.h) -/

/-- FNV-1a 32-bit offset basis, the default 32-bit seed. -/
def FNV_OFFSET_BASIS_32 : Nat := 0x811C9DC5

/-- FNV-1a 64-bit offset basis, the default 64-bit seed. -/
def FNV_OFFSET_BASIS_64 : Nat := 0xCBF29CE484222325

/-- Knuth multiplicative constant for 32-bit integer hashing. -/
def KNUTH_MULTIPLIER_32 : Nat := 0x45d9f3b

/-- Wang first multiplicative constant for 64-bit integer hashing. -/
def WANG_MULTIPLIER_64_C1 : Nat := 0xbf58476d1ce4e5b9

/-- Wang second multiplicative constant for 64-bit integer hashing. -/
def WANG_MULTIPLIER_64_C2 : Nat := 0x94d049bb133111eb

/-- Golden ratio constant for 32-bit hash combining. -/
def GOLDEN_RATIO_32 : Nat := 0x9e3779b9

/-- Golden ratio constant for 64-bit hash combining. -/
def GOLDEN_RATIO_64 : Nat := 0x9e3779b97f4a7c15

/-- MurmurHash3 first avalanche multiplier. -/
def MURMUR3_MULTIPLIER_C1 : Nat := 0xff51afd7ed558ccd

/-- MurmurHash3 second avalanche multiplier. -/
def MURMUR3_MULTIPLIER_C2 : Nat := 0xc4ceb9fe1a85ec53

/-! ## CRC32-C primitives (Algorithms.inl) -/

/-- One round of the software CRC32-C loop in `crc32cSoft`:
`crc = (crc >> 1) ^ ((crc & 1) ? 0x82F63B78 : 0)`. -/
def crc32cRound (crc : Nat) : Nat :=
  (crc >>> 1) ^^^ (if crc % 2 = 1 then 0x82F63B78 else 0)

/-- `n` iterations of `crc32cRound` (the source's `for (i = 0; i < 8; ++i)`). -/
def crcRounds : Nat → Nat → Nat
  | 0, crc => crc
  | n + 1, crc => crcRounds n (crc32cRound crc)

/-- `crc32cSoft` from Algorithms.inl: XOR the byte into the state, then run
8 polynomial-division rounds with the reflected Castagnoli polynomial. -/
def crc32cSoft (hash ch : Nat) : Nat :=
  crcRounds 8 (hash ^^^ ch)

/-- Feed `n` input bits into a reflected CRC state, least-significant first:
each step XORs the next bit into the state and runs one polynomial round. -/
def crcFeedBits : Nat → Nat → Nat → Nat
  | 0, state, _ => state
  | n + 1, state, bits => crcFeedBits n (crc32cRound (state ^^^ bits % 2)) (bits / 2)

/-- Modelled from the spec: the hardware CRC32C byte instruction
(`_mm_crc32_u8` / `__builtin_ia32_crc32qi`), which is external to the
repository.  The spec defines it as the CRC32-C step over the Castagnoli
polynomial 0x1EDC6F41 (reflected form 0x82F63B78); the canonical bit-serial
definition of a reflected CRC update consumes the byte's 8 bits
least-significant-bit first. -/
def crc32cHw (state ch : Nat) : Nat :=
  crcFeedBits 8 state ch

/-- `crc32c` from Algorithms.inl: dispatch on the cached SSE4.2 capability
flag — hardware instruction when available, `crc32cSoft` otherwise. -/
def crc32c (sse42 : Bool) (hash ch : Nat) : Nat :=
  if sse42 then crc32cHw hash ch else crc32cSoft hash ch

/-! ## Combine (Algorithms.inl, default Boost-style form) -/

/-- 32-bit `combine` from Algorithms.inl:
`existingHash ^= newHash + GOLDEN_RATIO_32 + (existingHash << 6) + (existingHash >> 2)`,
with uint32 wraparound on the casts, shift and sum. -/
def combine32 (existingHash newHash : Nat) : Nat :=
  let e := existingHash % 2 ^ 32
  let n := newHash % 2 ^ 32
  e ^^^ (n + GOLDEN_RATIO_32 + (e <<< 6) % 2 ^ 32 + e >>> 2) % 2 ^ 32

/-- 64-bit `combine` from Algorithms.inl: the Boost step with
`GOLDEN_RATIO_64` followed by the three-step MurmurHash3 finalizer. -/
def combine64 (existingHash newHash : Nat) : Nat :=
  let e := existingHash % 2 ^ 64
  let n := newHash % 2 ^ 64
  let a := e ^^^ (n + GOLDEN_RATIO_64 + (e <<< 6) % 2 ^ 64 + e >>> 2) % 2 ^ 64
  let b := a ^^^ a >>> 33
  let c := b * MURMUR3_MULTIPLIER_C1 % 2 ^ 64
  let d := c ^^^ c >>> 33
  let f := d * MURMUR3_MULTIPLIER_C2 % 2 ^ 64
  f ^^^ f >>> 33

/-! ## Integer hashing (Hasher.inl, `internal::hashInteger`) -/

/-- `hashInteger<uint32_t, Seed, T>` for inputs of 32 bits or narrower:
zero sentinel, then XOR with the seed and Knuth mixing.  `value` and
`Seed` are the uint32 bit patterns. -/
def hashInteger32 (Seed value : Nat) : Nat :=
  if value = 0 then 0
  else
    let x0 := value % 2 ^ 32 ^^^ Seed % 2 ^ 32
    let x1 := (x0 >>> 16 ^^^ x0) * KNUTH_MULTIPLIER_32 % 2 ^ 32
    let x2 := (x1 >>> 16 ^^^ x1) * KNUTH_MULTIPLIER_32 % 2 ^ 32
    x2 >>> 16 ^^^ x2

/-- `hashInteger<uint32_t, Seed, T>` for 64-bit inputs: zero sentinel, XOR
the 64-bit value with the zero-extended 32-bit seed, fold the halves
together, then the same Knuth mixing. -/
def hashInteger32of64 (Seed value : Nat) : Nat :=
  if value = 0 then 0
  else
    let v64 := value % 2 ^ 64 ^^^ Seed % 2 ^ 32
    let x0 := (v64 ^^^ v64 >>> 32) % 2 ^ 32
    let x1 := (x0 >>> 16 ^^^ x0) * KNUTH_MULTIPLIER_32 % 2 ^ 32
    let x2 := (x1 >>> 16 ^^^ x1) * KNUTH_MULTIPLIER_32 % 2 ^ 32
    x2 >>> 16 ^^^ x2

/-- `hashInteger<uint64_t, Seed, T>` (64-bit output, any input width):
zero sentinel, widen value and seed to 64 bits, XOR, Wang avalanche.
`value` is the already-widened uint64 bit pattern of the input. -/
def hashInteger64 (Seed value : Nat) : Nat :=
  if value = 0 then 0
  else
    let x0 := value % 2 ^ 64 ^^^ Seed % 2 ^ 64
    let x1 := (x0 ^^^ x0 >>> 30) * WANG_MULTIPLIER_64_C1 % 2 ^ 64
    let x2 := (x1 ^^^ x1 >>> 27) * WANG_MULTIPLIER_64_C2 % 2 ^ 64
    x2 ^^^ x2 >>> 31

/-! ## String hashing (Hasher.inl, `internal::hashStringView`) -/

/-- `hashStringView<uint32_t, Seed>`: empty strings hash to 0; otherwise
fold each byte through `crc32c` starting from the seed.  `key` is the
byte sequence (each element a uint8 value). -/
def hashStringView32 (sse42 : Bool) (Seed : Nat) (key : List Nat) : Nat :=
  if key = [] then 0
  else key.foldl (fun hashValue b => crc32c sse42 hashValue b) Seed

/-- `hashStringView<uint64_t, Seed>`: empty strings hash to 0; otherwise
run two CRC32-C streams, the low one seeded with the low 32 bits of the
seed consuming each byte unchanged, the high one seeded with the high 32
bits consuming each byte XORed with 0xFF; result is `(high << 32) | low`. -/
def hashStringView64 (sse42 : Bool) (Seed : Nat) (key : List Nat) : Nat :=
  if key = [] then 0
  else
    let p := key.foldl
      (fun (st : Nat × Nat) b => (crc32c sse42 st.1 b, crc32c sse42 st.2 (b ^^^ 0xFF)))
      (Seed % 2 ^ 32, Seed >>> 32 % 2 ^ 32)
    p.2 <<< 32 ||| p.1

/-! ## Seed mixing (Algorithms.inl, `seedMix`) -/

/-- `seedMix<uint32_t, MixConstant>`: Thomas Wang 32-bit mixing of
`seed + hash`, multiply by the 64-bit mix constant, mask with
`size - 1` (uint64 wraparound), truncate to uint32. -/
def seedMix32 (seed hash MixConstant size : Nat) : Nat :=
  let x0 := (seed + hash) % 2 ^ 32
  let x1 := x0 ^^^ x0 >>> 12
  let x2 := x1 ^^^ (x1 <<< 25) % 2 ^ 32
  let x3 := x2 ^^^ x2 >>> 27
  (x3 * (MixConstant % 2 ^ 64) % 2 ^ 64 &&& (size + (2 ^ 64 - 1)) % 2 ^ 64) % 2 ^ 32

/-- `seedMix<uint64_t, MixConstant>`: MurmurHash3 avalanche of
`seed + hash`, multiply by the mix constant, mask with `size - 1`
(uint64 wraparound). -/
def seedMix64 (seed hash MixConstant size : Nat) : Nat :=
  let x0 := (seed + hash) % 2 ^ 64
  let x1 := x0 ^^^ x0 >>> 33
  let x2 := x1 * MURMUR3_MULTIPLIER_C1 % 2 ^ 64
  let x3 := x2 ^^^ x2 >>> 33
  let x4 := x3 * MURMUR3_MULTIPLIER_C2 % 2 ^ 64
  let x5 := x4 ^^^ x4 >>> 33
  x5 * (MixConstant % 2 ^ 64) % 2 ^ 64 &&& (size + (2 ^ 64 - 1)) % 2 ^ 64

/-! ## Composite policies (Hasher.inl operator() overloads) -/

/-- `Hasher::operator()(const std::array<T, N>&)` at 32-bit width: fold
`combine` over the element hashes starting from the seed. -/
def arrayHash32 {α : Type} (elemHash : α → Nat) (Seed : Nat) (arr : List α) : Nat :=
  arr.foldl (fun result e => combine32 result (elemHash e)) Seed

/-- `Hasher::operator()(const std::array<T, N>&)` at 64-bit width. -/
def arrayHash64 {α : Type} (elemHash : α → Nat) (Seed : Nat) (arr : List α) : Nat :=
  arr.foldl (fun result e => combine64 result (elemHash e)) Seed

/-- `Hasher::operator()(const std::vector<T>&)` at 32-bit width: combine
the seed with the hash of the (uint64) size, then fold `combine` over the
element hashes. -/
def vectorHash32 {α : Type} (elemHash : α → Nat) (Seed : Nat) (vec : List α) : Nat :=
  vec.foldl (fun result e => combine32 result (elemHash e))
    (combine32 Seed (hashInteger32of64 Seed (vec.length % 2 ^ 64)))

/-- `Hasher::operator()(const std::vector<T>&)` at 64-bit width. -/
def vectorHash64 {α : Type} (elemHash : α → Nat) (Seed : Nat) (vec : List α) : Nat :=
  vec.foldl (fun result e => combine64 result (elemHash e))
    (combine64 Seed (hashInteger64 Seed (vec.length % 2 ^ 64)))

/-- `Hasher::operator()(const std::optional<T>&)` at 32-bit width:
present values hash to `combine(hash(value), 1)`, `nullopt` to
`combine(Seed, 0)`. -/
def optionalHash32 {α : Type} (elemHash : α → Nat) (Seed : Nat) : Option α → Nat
  | some v => combine32 (elemHash v) 1
  | none => combine32 Seed 0

/-- `Hasher::operator()(const std::optional<T>&)` at 64-bit width. -/
def optionalHash64 {α : Type} (elemHash : α → Nat) (Seed : Nat) : Option α → Nat
  | some v => combine64 (elemHash v) 1
  | none => combine64 Seed 0

/-! ## Specification-side definitions

Written from the spec's own formulas (sections 4.2 and 8), to be compared
with the source-derived definitions above in the refinement claims. -/

/-- Spec formula, 32-bit output with 32-bit-or-narrower input: XOR input
with seed, two rounds of `x = ((x>>16) XOR x) * 0x045d9f3b`, finish with
`x = (x>>16) XOR x` (arithmetic mod 2^32). -/
def specHash32of32 (seed value : Nat) : Nat :=
  let x0 := value ^^^ seed
  let x1 := (x0 >>> 16 ^^^ x0) * 0x045d9f3b % 2 ^ 32
  let x2 := (x1 >>> 16 ^^^ x1) * 0x045d9f3b % 2 ^ 32
  x2 >>> 16 ^^^ x2

/-- Spec formula, 64-bit input to 32-bit output: XOR the 64-bit value with
the widened seed, fold the high and low 32-bit halves together via XOR,
then the same Knuth mixing. -/
def specHash32of64 (seed value : Nat) : Nat :=
  let v := value ^^^ seed
  let x0 := v % 2 ^ 32 ^^^ v >>> 32
  let x1 := (x0 >>> 16 ^^^ x0) * 0x045d9f3b % 2 ^ 32
  let x2 := (x1 >>> 16 ^^^ x1) * 0x045d9f3b % 2 ^ 32
  x2 >>> 16 ^^^ x2

/-- Spec formula, 64-bit output: widen input and seed to 64 bits, XOR,
then Wang's avalanche `x = (x XOR (x>>30)) * 0xbf58476d1ce4e5b9`,
`x = (x XOR (x>>27)) * 0x94d049bb133111eb`, `x = x XOR (x>>31)`
(arithmetic mod 2^64). -/
def specHash64 (seed value : Nat) : Nat :=
  let x0 := value ^^^ seed
  let x1 := (x0 ^^^ x0 >>> 30) * 0xbf58476d1ce4e5b9 % 2 ^ 64
  let x2 := (x1 ^^^ x1 >>> 27) * 0x94d049bb133111eb % 2 ^ 64
  x2 ^^^ x2 >>> 31

/-! ## Derived characterization helpers -/

/-- Iterate `d ↦ crc32cSoft d 0xFF` : the content-independent evolution of
the XOR-difference between the high and the low CRC stream of the 64-bit
string hash, one step per consumed byte. -/
def halfDiffIter : Nat → Nat → Nat
  | 0, d => d
  | n + 1, d => halfDiffIter n (crc32cSoft d 0xFF)

/-- Check that the stream difference stays nonzero for `n` further bytes
when the current difference is `d`. -/
def halfDiffNonzeroUpTo : Nat → Nat → Bool
  | 0, _ => true
  | n + 1, d =>
    let d' := crc32cSoft d 0xFF
    (d' != 0) && halfDiffNonzeroUpTo n d'

/-! ## Bitwise helper lemmas -/

theorem xor_mod_two_pow (a b n : Nat) : (a ^^^ b) % 2 ^ n = a % 2 ^ n ^^^ b % 2 ^ n := by
  apply Nat.eq_of_testBit_eq
  intro i
  simp only [Nat.testBit_mod_two_pow, Nat.testBit_xor]
  by_cases h : i < n <;> simp [h]

theorem xor_shiftRight (a b k : Nat) : (a ^^^ b) >>> k = a >>> k ^^^ b >>> k := by
  apply Nat.eq_of_testBit_eq
  intro i
  simp [Nat.testBit_shiftRight, Nat.testBit_xor]

theorem xor_small_shiftRight (s m : Nat) (hm : m < 2) : (s ^^^ m) >>> 1 = s >>> 1 := by
  rw [xor_shiftRight]
  have h1 : m >>> 1 = 0 := by
    rw [Nat.shiftRight_eq_div_pow]
    omega
  rw [h1, Nat.xor_zero]

theorem xor_mod_two (a b : Nat) : (a ^^^ b) % 2 = a % 2 ^^^ b % 2 := by
  have h := xor_mod_two_pow a b 1
  simpa using h

/-! ## CRC32-C hardware/software equivalence -/

theorem crc32cRound_xor_split (s m : Nat) :
    crc32cRound (s ^^^ m) = crc32cRound (s ^^^ m % 2) ^^^ m / 2 := by
  unfold crc32cRound
  have hpar : (s ^^^ m) % 2 = (s ^^^ m % 2) % 2 := by
    rw [xor_mod_two s m, xor_mod_two s (m % 2)]
    congr 1
    omega
  rw [hpar, xor_shiftRight, xor_small_shiftRight s (m % 2) (by omega)]
  have hdiv : m >>> 1 = m / 2 := by
    rw [Nat.shiftRight_eq_div_pow]
  rw [hdiv, Nat.xor_assoc, Nat.xor_comm (m / 2), ← Nat.xor_assoc]

theorem crcFeedBits_eq (n : Nat) : ∀ s b, b < 2 ^ n → crcFeedBits n s b = crcRounds n (s ^^^ b) := by
  induction n with
  | zero =>
    intro s b hb
    have hb0 : b = 0 := Nat.lt_one_iff.mp (by simpa using hb)
    subst hb0
    simp [crcFeedBits, crcRounds]
  | succ n ih =>
    intro s b hb
    have hdiv : b / 2 < 2 ^ n := by
      rw [Nat.div_lt_iff_lt_mul (by norm_num)]
      calc b < 2 ^ (n + 1) := hb
        _ = 2 ^ n * 2 := by rw [Nat.pow_succ]
    simp only [crcFeedBits, crcRounds]
    rw [ih _ _ hdiv, ← crc32cRound_xor_split]

theorem crc32c_eq_soft (sse42 : Bool) (hash ch : Nat) (hch : ch < 256) :
    crc32c sse42 hash ch = crc32cSoft hash ch := by
  cases sse42 with
  | false => rfl
  | true =>
    show crc32cHw hash ch = crc32cSoft hash ch
    unfold crc32cHw crc32cSoft
    exact crcFeedBits_eq 8 hash ch (by simpa using hch)

theorem foldl_crc32c_eq_soft (sse42 : Bool) (key : List Nat) :
    ∀ init, (∀ b ∈ key, b < 256) →
      key.foldl (crc32c sse42) init = key.foldl crc32cSoft init := by
  induction key with
  | nil => intro init _; rfl
  | cons b bs ih =>
    intro init hb
    simp only [List.foldl_cons]
    rw [crc32c_eq_soft sse42 init b (hb b (by simp))]
    exact ih _ (fun x hx => hb x (by simp [hx]))

/-- Claim C1: for every state and byte value 0-255, `crc32c` (either
dispatch arm, hardware modelled from the spec) agrees with `crc32cSoft`,
and consequently folding any byte sequence through `crc32c` equals
folding it through `crc32cSoft`. -/
theorem crc32c_hw_soft_equiv :
    (∀ (sse42 : Bool) (state byte : Nat), byte < 256 →
        crc32c sse42 state byte = crc32cSoft state byte) ∧
    (∀ (sse42 : Bool) (init : Nat) (bytes : List Nat), (∀ b ∈ bytes, b < 256) →
        bytes.foldl (crc32c sse42) init = bytes.foldl crc32cSoft init) :=
  ⟨fun sse42 state byte h => crc32c_eq_soft sse42 state byte h,
    fun sse42 init bytes h => foldl_crc32c_eq_soft sse42 bytes init h⟩

/-- Witness for C1: concrete state 0x12345678, byte 0xAB, and the byte
sequence [72, 105] on the hardware dispatch arm. -/
theorem crc32c_hw_soft_equiv_witness :
    ((0xAB : Nat) < 256 ∧ crc32c true 0x12345678 0xAB = crc32cSoft 0x12345678 0xAB) ∧
      ((∀ b ∈ [72, 105], b < 256) ∧
        [72, 105].foldl (crc32c true) 0 = [72, 105].foldl crc32cSoft 0) :=
  ⟨⟨by decide, crc32c_hw_soft_equiv.1 true 0x12345678 0xAB (by decide)⟩,
    ⟨by decide, crc32c_hw_soft_equiv.2 true 0 [72, 105] (by decide)⟩⟩

/-- Claim C2: for both output widths and every seed, hashing the empty
byte sequence returns exactly 0. -/
theorem hashString_empty_is_zero :
    ∀ (sse42 : Bool) (Seed : Nat),
      hashStringView32 sse42 Seed [] = 0 ∧ hashStringView64 sse42 Seed [] = 0 := by
  intro sse42 Seed
  exact ⟨rfl, rfl⟩

/-- Claim C3: for every seed and all three code paths of `hashInteger`
(32-bit output from narrow input, 32-bit output from 64-bit input,
64-bit output), input zero hashes to exactly 0. -/
theorem hashInteger_zero_is_zero :
    ∀ Seed : Nat, hashInteger32 Seed 0 = 0 ∧ hashInteger32of64 Seed 0 = 0 ∧
      hashInteger64 Seed 0 = 0 := by
  intro Seed
  exact ⟨rfl, rfl, rfl⟩

/-! ## Range lemmas for the CRC state -/

theorem crc32cRound_lt (x : Nat) (hx : x < 2 ^ 32) : crc32cRound x < 2 ^ 32 := by
  unfold crc32cRound
  apply Nat.xor_lt_two_pow
  · rw [Nat.shiftRight_eq_div_pow]
    exact Nat.lt_of_le_of_lt (Nat.div_le_self x 2) hx
  · by_cases h : x % 2 = 1 <;> simp [h]

theorem crcRounds_lt (n : Nat) : ∀ x, x < 2 ^ 32 → crcRounds n x < 2 ^ 32 := by
  induction n with
  | zero => intro x hx; exact hx
  | succ n ih =>
    intro x hx
    exact ih _ (crc32cRound_lt x hx)

theorem crc32cSoft_lt (hash ch : Nat) (h1 : hash < 2 ^ 32) (h2 : ch < 2 ^ 32) :
    crc32cSoft hash ch < 2 ^ 32 :=
  crcRounds_lt 8 _ (Nat.xor_lt_two_pow h1 h2)

theorem foldl_crc32c_lt (sse42 : Bool) (t : Nat → Nat) (ht : ∀ b, b < 256 → t b < 256)
    (key : List Nat) : ∀ a, a < 2 ^ 32 → (∀ b ∈ key, b < 256) →
      key.foldl (fun h b => crc32c sse42 h (t b)) a < 2 ^ 32 := by
  induction key with
  | nil => intro a ha _; exact ha
  | cons b bs ih =>
    intro a ha hb
    simp only [List.foldl_cons]
    apply ih
    · rw [crc32c_eq_soft sse42 a (t b) (ht b (hb b (by simp)))]
      exact crc32cSoft_lt a (t b) ha (lt_trans (ht b (hb b (by simp))) (by norm_num))
    · exact fun x hx => hb x (by simp [hx])

/-! ## Splitting the dual-stream fold -/

theorem foldl_prod_split (sse42 : Bool) (key : List Nat) :
    ∀ a b, key.foldl
        (fun (st : Nat × Nat) x => (crc32c sse42 st.1 x, crc32c sse42 st.2 (x ^^^ 0xFF))) (a, b) =
      (key.foldl (fun h x => crc32c sse42 h x) a,
        key.foldl (fun h x => crc32c sse42 h (x ^^^ 0xFF)) b) := by
  induction key with
  | nil => intro a b; rfl
  | cons x xs ih =>
    intro a b
    simp only [List.foldl_cons]
    exact ih (crc32c sse42 a x) (crc32c sse42 b (x ^^^ 0xFF))

theorem shiftLeft_or_hi (hi lo : Nat) (hlo : lo < 2 ^ 32) :
    (hi <<< 32 ||| lo) >>> 32 = hi := by
  apply Nat.eq_of_testBit_eq
  intro i
  simp only [Nat.testBit_shiftRight, Nat.testBit_or, Nat.testBit_shiftLeft]
  have h1 : lo.testBit (32 + i) = false :=
    Nat.testBit_eq_false_of_lt (lt_of_lt_of_le hlo (Nat.pow_le_pow_right (by norm_num) (by omega)))
  have h2 : 32 + i - 32 = i := by omega
  simp [h1, h2]

theorem or_shiftLeft_mod (hi lo : Nat) (hlo : lo < 2 ^ 32) :
    (hi <<< 32 ||| lo) % 2 ^ 32 = lo := by
  apply Nat.eq_of_testBit_eq
  intro i
  simp only [Nat.testBit_mod_two_pow, Nat.testBit_or, Nat.testBit_shiftLeft]
  by_cases h : i < 32
  · have h2 : ¬(32 ≤ i) := by omega
    simp [h, h2]
  · have h1 : lo.testBit i = false :=
      Nat.testBit_eq_false_of_lt (lt_of_lt_of_le hlo (Nat.pow_le_pow_right (by norm_num) (by omega)))
    simp [h, h1]

theorem and_mask32_eq_mod (x : Nat) : x &&& 0xFFFFFFFF = x % 2 ^ 32 := by
  have h : (0xFFFFFFFF : Nat) = 2 ^ 32 - 1 := by norm_num
  rw [h, Nat.and_pow_two_sub_one_eq_mod]

/-- Claim C4: with seed 0, the low 32 bits of the 64-bit string hash
equal the 32-bit string hash of the same bytes. -/
theorem hash64_low_half_eq_hash32 :
    ∀ (sse42 : Bool) (key : List Nat), (∀ b ∈ key, b < 256) →
      hashStringView64 sse42 0 key &&& 0xFFFFFFFF = hashStringView32 sse42 0 key := by
  intro sse42 key hb
  rw [and_mask32_eq_mod]
  by_cases hk : key = []
  · subst hk
    rfl
  · simp only [hashStringView64, hashStringView32, if_neg hk]
    rw [foldl_prod_split]
    have h0 : (0 : Nat) % 2 ^ 32 = 0 := by norm_num
    have h0' : (0 : Nat) >>> 32 % 2 ^ 32 = 0 := by norm_num
    rw [h0, h0']
    exact or_shiftLeft_mod _ _
      (foldl_crc32c_lt sse42 (fun b => b) (fun b h => h) key 0 (by norm_num) hb)

/-- Witness for C4: the byte sequence [104, 105] on the hardware arm. -/
theorem hash64_low_half_eq_hash32_witness :
    (∀ b ∈ [104, 105], b < 256) ∧
      hashStringView64 true 0 [104, 105] &&& 0xFFFFFFFF = hashStringView32 true 0 [104, 105] :=
  ⟨by decide, hash64_low_half_eq_hash32 true [104, 105] (by decide)⟩

/-! ## Linearity of the CRC rounds over GF(2) -/

theorem xor_xor_shuffle (a b p q : Nat) : (a ^^^ p) ^^^ (b ^^^ q) = (a ^^^ b) ^^^ (p ^^^ q) := by
  apply Nat.eq_of_testBit_eq
  intro i
  simp only [Nat.testBit_xor]
  cases a.testBit i <;> cases b.testBit i <;> cases p.testBit i <;> cases q.testBit i <;> rfl

theorem crc32cRound_linear (x y : Nat) :
    crc32cRound x ^^^ crc32cRound y = crc32cRound (x ^^^ y) := by
  unfold crc32cRound
  rw [xor_xor_shuffle, xor_shiftRight]
  congr 1
  rcases Nat.mod_two_eq_zero_or_one x with hx | hx <;>
    rcases Nat.mod_two_eq_zero_or_one y with hy | hy <;>
      simp [hx, hy, xor_mod_two x y]

theorem crcRounds_linear (n : Nat) : ∀ x y,
    crcRounds n x ^^^ crcRounds n y = crcRounds n (x ^^^ y) := by
  induction n with
  | zero => intro x y; rfl
  | succ n ih =>
    intro x y
    simp only [crcRounds]
    rw [ih, crc32cRound_linear]

theorem crc32cSoft_stream_diff (hi lo b : Nat) :
    crc32cSoft hi (b ^^^ 0xFF) ^^^ crc32cSoft lo b = crc32cSoft (hi ^^^ lo) 0xFF := by
  unfold crc32cSoft
  rw [crcRounds_linear]
  congr 1
  rw [xor_xor_shuffle]
  congr 1
  rw [Nat.xor_comm b 0xFF, Nat.xor_assoc, Nat.xor_self, Nat.xor_zero]

/-! ## Content-independence of the high/low stream difference -/

theorem foldl_halfDiff (sse42 : Bool) : ∀ (key : List Nat), (∀ b ∈ key, b < 256) →
    ∀ lo hi, key.foldl (fun h x => crc32c sse42 h (x ^^^ 0xFF)) hi ^^^
        key.foldl (fun h x => crc32c sse42 h x) lo
      = halfDiffIter key.length (hi ^^^ lo) := by
  intro key
  induction key with
  | nil => intro _ lo hi; rfl
  | cons b bs ih =>
    intro hb lo hi
    have hb256 : b < 256 := hb b (by simp)
    have hbf : b ^^^ 0xFF < 256 := by
      have h1 : b < 2 ^ 8 := by simpa using hb256
      have h2 : (0xFF : Nat) < 2 ^ 8 := by norm_num
      simpa using Nat.xor_lt_two_pow h1 h2
    simp only [List.foldl_cons, List.length_cons]
    rw [ih (fun x hx => hb x (by simp [hx])) (crc32c sse42 lo b) (crc32c sse42 hi (b ^^^ 0xFF))]
    rw [crc32c_eq_soft sse42 hi (b ^^^ 0xFF) hbf, crc32c_eq_soft sse42 lo b hb256]
    rw [crc32cSoft_stream_diff]
    rfl

theorem halfDiffNonzeroUpTo_spec : ∀ n d, halfDiffNonzeroUpTo n d = true →
    ∀ k, 1 ≤ k → k ≤ n → halfDiffIter k d ≠ 0 := by
  intro n
  induction n with
  | zero => intro d _ k h1 h2; omega
  | succ n ih =>
    intro d h k h1 h2
    simp only [halfDiffNonzeroUpTo, Bool.and_eq_true, bne_iff_ne, ne_eq] at h
    obtain ⟨hne, hrest⟩ := h
    match k, h1 with
    | k' + 1, _ =>
      simp only [halfDiffIter]
      rcases Nat.eq_zero_or_pos k' with h0 | hpos
      · subst h0
        simpa [halfDiffIter] using hne
      · exact ih (crc32cSoft d 0xFF) hrest k' hpos (by omega)

set_option maxRecDepth 40000 in
theorem halfDiffNonzero_1024 : halfDiffNonzeroUpTo 1024 0 = true := by
  rfl

theorem foldl_prod_fst (sse42 : Bool) (key : List Nat) (a b : Nat) :
    (key.foldl
        (fun (st : Nat × Nat) x => (crc32c sse42 st.1 x, crc32c sse42 st.2 (x ^^^ 0xFF))) (a, b)).1 =
      key.foldl (fun h x => crc32c sse42 h x) a := by
  rw [foldl_prod_split]

theorem foldl_prod_snd (sse42 : Bool) (key : List Nat) (a b : Nat) :
    (key.foldl
        (fun (st : Nat × Nat) x => (crc32c sse42 st.1 x, crc32c sse42 st.2 (x ^^^ 0xFF))) (a, b)).2 =
      key.foldl (fun h x => crc32c sse42 h (x ^^^ 0xFF)) b := by
  rw [foldl_prod_split]

theorem hash64_halves_diff_eq (sse42 : Bool) (Seed : Nat) (key : List Nat)
    (hk : key ≠ []) (hb : ∀ b ∈ key, b < 256) :
    hashStringView64 sse42 Seed key >>> 32 ^^^ hashStringView64 sse42 Seed key % 2 ^ 32
      = halfDiffIter key.length (Seed >>> 32 % 2 ^ 32 ^^^ Seed % 2 ^ 32) := by
  simp only [hashStringView64, if_neg hk]
  rw [foldl_prod_fst, foldl_prod_snd]
  have hlo : key.foldl (fun h x => crc32c sse42 h x) (Seed % 2 ^ 32) < 2 ^ 32 :=
    foldl_crc32c_lt sse42 (fun b => b) (fun b h => h) key _ (Nat.mod_lt _ (by norm_num)) hb
  rw [shiftLeft_or_hi _ _ hlo, or_shiftLeft_mod _ _ hlo]
  exact foldl_halfDiff sse42 key hb _ _

/-- Claim C5 (amended): for every seed and non-empty byte string, the XOR
of the high and low 32-bit halves of the 64-bit string hash depends only
on the seed and the length — it equals iterating `d ↦ crc32cSoft d 0xFF`
(length) times from (seedHigh XOR seedLow); consequently, for every seed
whose 32-bit halves are equal (such as the zero seed) the two halves
differ for every string of length 1 to 1024.  The halves are NOT always
distinct: see the counterexample. -/
theorem hash64_half_diff_characterization :
    (∀ (sse42 : Bool) (Seed : Nat) (key : List Nat), key ≠ [] → (∀ b ∈ key, b < 256) →
        hashStringView64 sse42 Seed key >>> 32 ^^^ (hashStringView64 sse42 Seed key &&& 0xFFFFFFFF)
          = halfDiffIter key.length (Seed >>> 32 % 2 ^ 32 ^^^ Seed % 2 ^ 32)) ∧
    (∀ (sse42 : Bool) (Seed : Nat) (key : List Nat), key ≠ [] → (∀ b ∈ key, b < 256) →
        key.length ≤ 1024 → Seed >>> 32 % 2 ^ 32 = Seed % 2 ^ 32 →
        hashStringView64 sse42 Seed key >>> 32 ≠
          (hashStringView64 sse42 Seed key &&& 0xFFFFFFFF)) := by
  constructor
  · intro sse42 Seed key hk hb
    rw [and_mask32_eq_mod]
    exact hash64_halves_diff_eq sse42 Seed key hk hb
  · intro sse42 Seed key hk hb hlen hEq heq
    rw [and_mask32_eq_mod] at heq
    have hchar := hash64_halves_diff_eq sse42 Seed key hk hb
    rw [heq, Nat.xor_self, hEq, Nat.xor_self] at hchar
    exact halfDiffNonzeroUpTo_spec 1024 0 halfDiffNonzero_1024 key.length
      (List.length_pos.mpr hk) hlen hchar.symm

/-- Counterexample to claim C5 as stated: for seed 0xFF00000000 the
one-byte string [0x00] drives both CRC streams to 0, so the high and low
halves of the 64-bit hash are identical (on both dispatch arms). -/
theorem hash64_halves_collide_cex :
    ([(0 : Nat)] ≠ ([] : List Nat)) ∧
      hashStringView64 false 0xFF00000000 [0] >>> 32
        = (hashStringView64 false 0xFF00000000 [0] &&& 0xFFFFFFFF) ∧
      hashStringView64 true 0xFF00000000 [0] >>> 32
        = (hashStringView64 true 0xFF00000000 [0] &&& 0xFFFFFFFF) :=
  ⟨by decide, by decide, by decide⟩

/-- Witness for C5 (amended) at the zero seed and byte string [104]. -/
theorem hash64_half_diff_characterization_witness :
    (([(104 : Nat)] ≠ ([] : List Nat)) ∧ (∀ b ∈ [(104 : Nat)], b < 256) ∧
      hashStringView64 true 0 [104] >>> 32 ^^^ (hashStringView64 true 0 [104] &&& 0xFFFFFFFF)
        = halfDiffIter [(104 : Nat)].length ((0 : Nat) >>> 32 % 2 ^ 32 ^^^ (0 : Nat) % 2 ^ 32)) ∧
    (([(104 : Nat)].length ≤ 1024) ∧ ((0 : Nat) >>> 32 % 2 ^ 32 = (0 : Nat) % 2 ^ 32) ∧
      hashStringView64 true 0 [104] >>> 32 ≠ (hashStringView64 true 0 [104] &&& 0xFFFFFFFF)) :=
  ⟨⟨by decide, by decide,
      hash64_half_diff_characterization.1 true 0 [104] (by decide) (by decide)⟩,
    ⟨by decide, by decide,
      hash64_half_diff_characterization.2 true 0 [104] (by decide) (by decide) (by decide)
        (by decide)⟩⟩

/-! ## seedMix range -/

theorem size_mask_eq (size : Nat) (h1 : 1 ≤ size) (h2 : size < 2 ^ 64) :
    (size + (2 ^ 64 - 1)) % 2 ^ 64 = size - 1 := by
  have hA : (1 : Nat) ≤ 2 ^ 64 := Nat.one_le_two_pow
  have h3 : size + (2 ^ 64 - 1) = 2 ^ 64 + (size - 1) := by omega
  rw [h3, Nat.add_mod_left]
  exact Nat.mod_eq_of_lt (by omega)

/-- Claim C6: for power-of-two table sizes the seed-mixed index is in
`[0, tableSize)` for both widths; for any table size at least 1 the
function is well defined — the 64-bit result is at most `tableSize - 1`
and the 32-bit result is a uint32 value. -/
theorem seedMix_range :
    (∀ seed hash MixConstant k : Nat, k < 64 →
        seedMix32 seed hash MixConstant (2 ^ k) < 2 ^ k) ∧
    (∀ seed hash MixConstant k : Nat, k < 64 →
        seedMix64 seed hash MixConstant (2 ^ k) < 2 ^ k) ∧
    (∀ seed hash MixConstant size : Nat, 1 ≤ size → size < 2 ^ 64 →
        seedMix64 seed hash MixConstant size ≤ size - 1 ∧
          seedMix32 seed hash MixConstant size < 2 ^ 32) := by
  refine ⟨?_, ?_, ?_⟩
  · intro seed hash MixConstant k hk
    simp only [seedMix32]
    rw [size_mask_eq _ Nat.one_le_two_pow (Nat.pow_lt_pow_right (by norm_num) hk),
      Nat.and_pow_two_sub_one_eq_mod]
    by_cases h32 : k ≤ 32
    · have hlt : ∀ y : Nat, y % 2 ^ k < 2 ^ k := fun y => Nat.mod_lt _ (pow_pos (by norm_num) k)
      have hle : (2 : Nat) ^ k ≤ 2 ^ 32 := Nat.pow_le_pow_right (by norm_num) h32
      rw [Nat.mod_eq_of_lt (lt_of_lt_of_le (hlt _) hle)]
      exact hlt _
    · exact lt_of_lt_of_le (Nat.mod_lt _ (by norm_num))
        (Nat.pow_le_pow_right (by norm_num) (by omega))
  · intro seed hash MixConstant k hk
    simp only [seedMix64]
    rw [size_mask_eq _ Nat.one_le_two_pow (Nat.pow_lt_pow_right (by norm_num) hk),
      Nat.and_pow_two_sub_one_eq_mod]
    exact Nat.mod_lt _ (pow_pos (by norm_num) k)
  · intro seed hash MixConstant size h1 h2
    constructor
    · simp only [seedMix64]
      rw [size_mask_eq size h1 h2]
      exact Nat.and_le_right
    · simp only [seedMix32]
      exact Nat.mod_lt _ (by norm_num)

/-- Witness for C6 at seed 3, hash 5, the source's default mix constant,
table sizes 2^10 and 1000. -/
theorem seedMix_range_witness :
    ((10 : Nat) < 64 ∧ seedMix32 3 5 0x2545F4914F6CDD1D (2 ^ 10) < 2 ^ 10) ∧
    ((10 : Nat) < 64 ∧ seedMix64 3 5 0x2545F4914F6CDD1D (2 ^ 10) < 2 ^ 10) ∧
    ((1 : Nat) ≤ 1000 ∧ (1000 : Nat) < 2 ^ 64 ∧
      (seedMix64 3 5 0x2545F4914F6CDD1D 1000 ≤ 1000 - 1 ∧
        seedMix32 3 5 0x2545F4914F6CDD1D 1000 < 2 ^ 32)) :=
  ⟨⟨by decide, seedMix_range.1 3 5 0x2545F4914F6CDD1D 10 (by decide)⟩,
    ⟨by decide, seedMix_range.2.1 3 5 0x2545F4914F6CDD1D 10 (by decide)⟩,
    ⟨by decide, by norm_num,
      seedMix_range.2.2 3 5 0x2545F4914F6CDD1D 1000 (by decide) (by norm_num)⟩⟩

/-! ## Empty containers, optionals -/

/-- Counterexample to claim C7 as stated: at seed 0x6125FC1D — a fixed
point of `combine32 (·, 0)` — the empty-vector hash equals the
empty-array hash (both equal the seed). -/
theorem empty_vector_eq_seed_cex :
    vectorHash32 (hashInteger32 0x6125FC1D) 0x6125FC1D ([] : List Nat)
      = arrayHash32 (hashInteger32 0x6125FC1D) 0x6125FC1D ([] : List Nat) := by
  decide

/-- Claim C7 (amended): for every element hasher and seed, an empty array
hashes to Seed unchanged while an empty vector hashes to
`combine(Seed, hash(0)) = combine(Seed, 0)`; at the default seeds the
two values differ for both widths (they do not differ at every seed —
see the counterexample). -/
theorem empty_array_vs_empty_vector :
    (∀ {α : Type} (elemHash : α → Nat) (Seed : Nat),
        arrayHash32 elemHash Seed ([] : List α) = Seed ∧
        arrayHash64 elemHash Seed ([] : List α) = Seed ∧
        vectorHash32 elemHash Seed ([] : List α) = combine32 Seed 0 ∧
        vectorHash64 elemHash Seed ([] : List α) = combine64 Seed 0) ∧
    vectorHash32 (hashInteger32 FNV_OFFSET_BASIS_32) FNV_OFFSET_BASIS_32 ([] : List Nat)
      ≠ arrayHash32 (hashInteger32 FNV_OFFSET_BASIS_32) FNV_OFFSET_BASIS_32 ([] : List Nat) ∧
    vectorHash64 (hashInteger64 FNV_OFFSET_BASIS_64) FNV_OFFSET_BASIS_64 ([] : List Nat)
      ≠ arrayHash64 (hashInteger64 FNV_OFFSET_BASIS_64) FNV_OFFSET_BASIS_64 ([] : List Nat) :=
  ⟨fun _ _ => ⟨rfl, rfl, rfl, rfl⟩, by decide, by decide⟩

/-- Counterexample to claim C8 as stated: at the default 32-bit seed, a
present optional holding the uint32 value 0xDFA0940D hashes to exactly
the nullopt hash. -/
theorem optional_present_collides_none_cex :
    optionalHash32 (hashInteger32 FNV_OFFSET_BASIS_32) FNV_OFFSET_BASIS_32 (some 0xDFA0940D)
      = optionalHash32 (hashInteger32 FNV_OFFSET_BASIS_32) FNV_OFFSET_BASIS_32 none := by
  decide

/-- Claim C8 (amended): the optional policy encodes presence as
`combine(hash(v), 1)` and absence as `combine(Seed, 0)` for every seed
and element hasher; at the default seeds (both widths) the absent hash
differs from the hash of a present zero value (whose contained hash is
the zero sentinel).  It does not differ from every present value — see
the counterexample. -/
theorem optional_none_vs_present :
    (∀ {α : Type} (elemHash : α → Nat) (Seed : Nat) (v : α),
        optionalHash32 elemHash Seed (some v) = combine32 (elemHash v) 1 ∧
        optionalHash32 elemHash Seed none = combine32 Seed 0 ∧
        optionalHash64 elemHash Seed (some v) = combine64 (elemHash v) 1 ∧
        optionalHash64 elemHash Seed none = combine64 Seed 0) ∧
    optionalHash32 (hashInteger32 FNV_OFFSET_BASIS_32) FNV_OFFSET_BASIS_32 (some 0)
      ≠ optionalHash32 (hashInteger32 FNV_OFFSET_BASIS_32) FNV_OFFSET_BASIS_32 none ∧
    optionalHash64 (hashInteger64 FNV_OFFSET_BASIS_64) FNV_OFFSET_BASIS_64 (some 0)
      ≠ optionalHash64 (hashInteger64 FNV_OFFSET_BASIS_64) FNV_OFFSET_BASIS_64 none :=
  ⟨fun _ _ _ => ⟨rfl, rfl, rfl, rfl⟩, by decide, by decide⟩

/-- Claim C10: an empty vector and an absent optional hash to the same
value `combine(Seed, 0)`, for every pair of element types and hashers,
every seed, and both output widths. -/
theorem empty_vector_eq_none_hash :
    ∀ {α β : Type} (ehA : α → Nat) (ehB : β → Nat) (Seed : Nat),
      vectorHash32 ehA Seed ([] : List α) = optionalHash32 ehB Seed none ∧
      vectorHash64 ehA Seed ([] : List α) = optionalHash64 ehB Seed none :=
  fun _ _ _ => ⟨rfl, rfl⟩

/-! ## Integer hash matches the spec formulas -/

/-- Claim C9: for every nonzero input, the three `hashInteger` code paths
compute exactly the spec's formulas: Knuth mixing for 32-bit output
(with half-folding for 64-bit inputs) and Wang's avalanche for 64-bit
output. -/
theorem hashInteger_matches_spec :
    (∀ Seed value : Nat, Seed < 2 ^ 32 → value < 2 ^ 32 → value ≠ 0 →
        hashInteger32 Seed value = specHash32of32 Seed value) ∧
    (∀ Seed value : Nat, Seed < 2 ^ 32 → value < 2 ^ 64 → value ≠ 0 →
        hashInteger32of64 Seed value = specHash32of64 Seed value) ∧
    (∀ Seed value : Nat, Seed < 2 ^ 64 → value < 2 ^ 64 → value ≠ 0 →
        hashInteger64 Seed value = specHash64 Seed value) := by
  refine ⟨?_, ?_, ?_⟩
  · intro Seed value hs hv hnz
    simp only [hashInteger32, specHash32of32, KNUTH_MULTIPLIER_32, if_neg hnz,
      Nat.mod_eq_of_lt hs, Nat.mod_eq_of_lt hv]
  · intro Seed value hs hv hnz
    have hvx : value ^^^ Seed < 2 ^ 64 :=
      Nat.xor_lt_two_pow hv (lt_of_lt_of_le hs (by norm_num))
    have hsh : (value ^^^ Seed) >>> 32 < 2 ^ 32 := by
      rw [Nat.shiftRight_eq_div_pow, Nat.div_lt_iff_lt_mul (by norm_num)]
      calc value ^^^ Seed < 2 ^ 64 := hvx
        _ = 2 ^ 32 * 2 ^ 32 := by norm_num
    simp only [hashInteger32of64, specHash32of64, KNUTH_MULTIPLIER_32, if_neg hnz,
      Nat.mod_eq_of_lt hs, Nat.mod_eq_of_lt hv]
    rw [xor_mod_two_pow, Nat.mod_eq_of_lt hsh]
  · intro Seed value hs hv hnz
    simp only [hashInteger64, specHash64, WANG_MULTIPLIER_64_C1, WANG_MULTIPLIER_64_C2,
      if_neg hnz, Nat.mod_eq_of_lt hs, Nat.mod_eq_of_lt hv]

/-- Witness for C9: concrete seeds (the default bases) and inputs 42 and
0x123456789A. -/
theorem hashInteger_matches_spec_witness :
    (FNV_OFFSET_BASIS_32 < 2 ^ 32 ∧ (42 : Nat) < 2 ^ 32 ∧ (42 : Nat) ≠ 0 ∧
      hashInteger32 FNV_OFFSET_BASIS_32 42 = specHash32of32 FNV_OFFSET_BASIS_32 42) ∧
    (FNV_OFFSET_BASIS_32 < 2 ^ 32 ∧ (0x123456789A : Nat) < 2 ^ 64 ∧ (0x123456789A : Nat) ≠ 0 ∧
      hashInteger32of64 FNV_OFFSET_BASIS_32 0x123456789A
        = specHash32of64 FNV_OFFSET_BASIS_32 0x123456789A) ∧
    (FNV_OFFSET_BASIS_64 < 2 ^ 64 ∧ (42 : Nat) < 2 ^ 64 ∧ (42 : Nat) ≠ 0 ∧
      hashInteger64 FNV_OFFSET_BASIS_64 42 = specHash64 FNV_OFFSET_BASIS_64 42) :=
  ⟨⟨by decide, by decide, by decide,
      hashInteger_matches_spec.1 FNV_OFFSET_BASIS_32 42 (by decide) (by decide) (by decide)⟩,
    ⟨by decide, by norm_num, by decide,
      hashInteger_matches_spec.2.1 FNV_OFFSET_BASIS_32 0x123456789A (by decide) (by norm_num)
        (by decide)⟩,
    ⟨by decide, by norm_num, by decide,
      hashInteger_matches_spec.2.2 FNV_OFFSET_BASIS_64 42 (by decide) (by norm_num)
        (by decide)⟩⟩
